import Mathlib

/-!
# Verification of the plarix-scan interception pipeline

Shallow embedding of the Go sources of `plarix-scan` (LLM API cost recorder):
`internal/pricing/pricing.go`, `internal/ledger/ledger.go`,
`internal/proxy/proxy.go` and the `OnEntry` pricing stage of
`cmd/plarix-scan/main.go`.

Modelling conventions:
- Go `float64` values (prices, costs) are modelled as exact rationals `ℚ`.
- Go `int` is modelled as `ℤ`.
- Go maps are modelled as association lists (`List (String × V)`,
  first-key-wins lookup); a `nil` map coming out of `encoding/json` is
  modelled as `Option`.
- Go standard-library JSON (`encoding/json`) is not repository code; it is
  modelled as an abstract codec (`JsonCodec`) over a shallow JSON value type.
-/

namespace PlarixScan

/-! ## Pricing (`internal/pricing/pricing.go`) -/

/-- `ModelPrice` holds per-1K token prices for a model (pricing.go:22). -/
structure ModelPrice where
  inputPer1K : ℚ
  outputPer1K : ℚ
  deriving DecidableEq, Repr

/-- `Prices` holds the pricing table (pricing.go:16).  The Go
`map[string]ModelPrice` is an association list here. -/
structure Prices where
  asOf : String
  models : List (String × ModelPrice)
  deriving DecidableEq, Repr

/-- `CostResult` (pricing.go:28). -/
structure CostResult where
  costUSD : ℚ
  known : Bool
  unknownReason : String
  deriving DecidableEq, Repr

/-- `Prices.ComputeCost` (pricing.go:55-70).  The branch for a missing model
returns the Go zero value for `CostUSD` (0) and the formatted reason
`model %q not in pricing table`; the `%q` verb is modelled as wrapping the
model name in double quotes. -/
def Prices.ComputeCost (p : Prices) (model : String) (inputTokens outputTokens : ℤ) :
    CostResult :=
  match p.models.lookup model with
  | none =>
      { costUSD := 0
        known := false
        unknownReason := "model \"" ++ (model ++ "\" not in pricing table") }
  | some mp =>
      { costUSD := ((inputTokens : ℚ) * mp.inputPer1K + (outputTokens : ℚ) * mp.outputPer1K) / 1000
        known := true
        unknownReason := "" }

/-! ### Date parsing and staleness (`IsStale`, pricing.go:74-80)

The Go code parses `p.AsOf` with layout `"2006-01-02"` (`time.Parse`): a
4-digit year, 2-digit month and 2-digit day separated by `-`, with range
validation (month 1..12, day within the month).  Instants are modelled as
seconds since the civil epoch 1970-01-01; `time.Since asOf = now - asOf`. -/

/-- Split a character list on every occurrence of a separator character
(the relevant behaviour of `strings.Split` / field separation in
`time.Parse`). -/
def splitOnChar (sep : Char) : List Char → List (List Char)
  | [] => [[]]
  | c :: rest =>
      let r := splitOnChar sep rest
      if c = sep then [] :: r
      else
        match r with
        | [] => [[c]]
        | x :: xs => (c :: x) :: xs

/-- Parse a fixed-width, all-digit decimal field, as the reference layout
`"2006-01-02"` requires. -/
def parseFixedNat (s : List Char) (width : Nat) : Option Nat :=
  if s.length = width ∧ s.all (·.isDigit) then
    some (s.foldl (fun acc c => 10 * acc + (c.toNat - 48)) 0)
  else
    none

/-- Gregorian leap-year test, as used by Go's `time` package. -/
def isLeapYear (y : ℤ) : Bool :=
  y % 4 = 0 && (y % 100 ≠ 0 || y % 400 = 0)

/-- Days in a month of a given year. -/
def daysInMonth (y : ℤ) (m : Nat) : Nat :=
  if m = 2 then (if isLeapYear y then 29 else 28)
  else if m = 4 ∨ m = 6 ∨ m = 9 ∨ m = 11 then 30
  else 31

/-- `time.Parse "2006-01-02"`: returns the (year, month, day) triple when the
string is a valid calendar date in that layout. -/
def parseDate (s : String) : Option (ℤ × Nat × Nat) :=
  match splitOnChar '-' s.data with
  | [ys, ms, ds] =>
      match parseFixedNat ys 4, parseFixedNat ms 2, parseFixedNat ds 2 with
      | some y, some m, some d =>
          if 1 ≤ m ∧ m ≤ 12 ∧ 1 ≤ d ∧ d ≤ daysInMonth (y : ℤ) m then
            some ((y : ℤ), m, d)
          else none
      | _, _, _ => none
  | _ => none

/-- Days from the civil epoch 1970-01-01 to year/month/day
(standard `days_from_civil` calendar algorithm). -/
def daysFromCivil (y : ℤ) (m d : Nat) : ℤ :=
  let y' : ℤ := if m ≤ 2 then y - 1 else y
  let era : ℤ := (if 0 ≤ y' then y' else y' - 399) / 400
  let yoe : ℤ := y' - era * 400
  let mp : ℤ := if m > 2 then (m : ℤ) - 3 else (m : ℤ) + 9
  let doy : ℤ := (153 * mp + 2) / 5 + (d : ℤ) - 1
  let doe : ℤ := yoe * 365 + yoe / 4 - yoe / 100 + doy
  era * 146097 + doe - 719468

/-- Instant (seconds since the epoch) of midnight UTC of a parsed date. -/
def dateToUnix : ℤ × Nat × Nat → ℤ
  | (y, m, d) => daysFromCivil y m d * 86400

/-- `Prices.IsStale` (pricing.go:74-80), with the current instant `now` and
the maximum age `maxAge` in seconds.  An unparseable `as_of` is stale;
otherwise stale iff `time.Since(asOf) > maxAge`. -/
def Prices.IsStale (p : Prices) (now maxAge : ℤ) : Bool :=
  match parseDate p.asOf with
  | none => true
  | some ymd => now - dateToUnix ymd > maxAge

/-! ### `Load` post-processing (pricing.go:35-51)

`Load` reads a file and `json.Unmarshal`s it into `Prices`; file I/O and the
JSON decoder are outside the repository.  What the repository code decides is
the post-processing of the decoded value: a JSON document without a `models`
mapping leaves the Go `Models` map `nil`, and `Load` replaces a `nil` map by
a fresh empty one (pricing.go:46-48). -/

/-- The decoded form of a pricing JSON document: `models` is `none` when the
document lacks a `"models"` mapping (Go: the map field stays `nil`). -/
structure RawPrices where
  asOf : String
  models : Option (List (String × ModelPrice))
  deriving DecidableEq, Repr

/-- The `nil`-map normalization performed by `Load` (pricing.go:46-48). -/
def loadFromParsed (r : RawPrices) : Prices :=
  { asOf := r.asOf
    models := r.models.getD [] }

/-! ## Ledger (`internal/ledger/ledger.go`) -/

/-- `Entry` (ledger.go:17-30): a single LLM API call record.  The opaque
`RawUsage` JSON payload is kept as an association list of rendered values; it
is audit data and never inspected by the code under verification. -/
structure Entry where
  timestamp : String
  provider : String
  endpoint : String
  model : String
  inputTokens : ℤ
  outputTokens : ℤ
  rawUsage : List (String × String)
  costUSD : ℚ
  costKnown : Bool
  unknownReason : String
  requestID : String
  streaming : Bool
  deriving DecidableEq, Repr

/-- The Go zero value of `Entry`. -/
def Entry.zero : Entry :=
  { timestamp := "", provider := "", endpoint := "", model := ""
    inputTokens := 0, outputTokens := 0, rawUsage := []
    costUSD := 0, costKnown := false, unknownReason := ""
    requestID := "", streaming := false }

/-- `ModelStats` (ledger.go:46-51). -/
structure ModelStats where
  calls : ℤ
  inputTokens : ℤ
  outputTokens : ℤ
  knownCostUSD : ℚ
  deriving DecidableEq, Repr

/-- The Go zero value of `ModelStats`, returned by a map read at a missing
key (`s.ModelBreakdown[e.Model]`, ledger.go:137). -/
def ModelStats.zero : ModelStats :=
  { calls := 0, inputTokens := 0, outputTokens := 0, knownCostUSD := 0 }

/-- `Summary` (ledger.go:33-43).  The two Go maps are association lists. -/
structure Summary where
  totalCalls : ℤ
  knownCostCalls : ℤ
  unknownCostCalls : ℤ
  totalKnownCostUSD : ℚ
  totalInputTokens : ℤ
  totalOutputTokens : ℤ
  modelBreakdown : List (String × ModelStats)
  unknownReasons : List (String × ℤ)
  warnings : List String
  deriving DecidableEq, Repr

/-- The `Summary` value built at the top of `Aggregator.Summary`
(ledger.go:116-119): all totals zero, fresh empty maps. -/
def Summary.init : Summary :=
  { totalCalls := 0, knownCostCalls := 0, unknownCostCalls := 0
    totalKnownCostUSD := 0, totalInputTokens := 0, totalOutputTokens := 0
    modelBreakdown := [], unknownReasons := [], warnings := [] }

/-- Go map assignment `m[k] = v` on an association list: replace the first
binding of `k`, or append a new one. -/
def assocSet {V : Type} (m : List (String × V)) (k : String) (v : V) :
    List (String × V) :=
  match m with
  | [] => [(k, v)]
  | (k', v') :: rest =>
      if k' = k then (k, v) :: rest else (k', v') :: assocSet rest k v

/-- Go map read `m[k]` that yields the zero value at a missing key. -/
def assocGetD {V : Type} (m : List (String × V)) (k : String) (d : V) : V :=
  (m.lookup k).getD d

/-- One iteration of the loop body of `Aggregator.Summary`
(ledger.go:121-145). -/
def summaryStep (s : Summary) (e : Entry) : Summary :=
  let s := { s with
    totalCalls := s.totalCalls + 1
    totalInputTokens := s.totalInputTokens + e.inputTokens
    totalOutputTokens := s.totalOutputTokens + e.outputTokens }
  let s :=
    if e.costKnown then
      { s with
        knownCostCalls := s.knownCostCalls + 1
        totalKnownCostUSD := s.totalKnownCostUSD + e.costUSD }
    else
      { s with
        unknownCostCalls := s.unknownCostCalls + 1
        unknownReasons :=
          if e.unknownReason ≠ "" then
            assocSet s.unknownReasons e.unknownReason
              (assocGetD s.unknownReasons e.unknownReason 0 + 1)
          else s.unknownReasons }
  let ms := assocGetD s.modelBreakdown e.model ModelStats.zero
  let ms := { ms with
    calls := ms.calls + 1
    inputTokens := ms.inputTokens + e.inputTokens
    outputTokens := ms.outputTokens + e.outputTokens }
  let ms := if e.costKnown then { ms with knownCostUSD := ms.knownCostUSD + e.costUSD } else ms
  { s with modelBreakdown := assocSet s.modelBreakdown e.model ms }

/-- `Aggregator.Summary` (ledger.go:112-148) as a function of the entry
sequence held by the aggregator (appended in order by `Add`). -/
def aggregatorSummary (entries : List Entry) : Summary :=
  entries.foldl summaryStep Summary.init

/-! ## Go string helpers used by the proxy -/

/-- Whether `pat` is a prefix of `s` (character lists). -/
def listStartsWith : List Char → List Char → Bool
  | _, [] => true
  | [], _ :: _ => false
  | c :: cs, p :: ps => c = p && listStartsWith cs ps

/-- Whether `pat` occurs as a contiguous run inside `s` (character lists). -/
def listContains : List Char → List Char → Bool
  | [], pat => listStartsWith [] pat
  | c :: rest, pat => listStartsWith (c :: rest) pat || listContains rest pat

/-- `strings.Contains s substr`. -/
def goContains (s substr : String) : Bool :=
  listContains s.data substr.data

/-- `strings.TrimPrefix s pre`. -/
def goTrimPrefix (s pre : String) : String :=
  if listStartsWith s.data pre.data then ⟨s.data.drop pre.data.length⟩ else s

/-- Split at the first occurrence of a (non-empty) separator: the parts
before and after it, or `none` when it does not occur. -/
def splitFirst (pat : List Char) : List Char → Option (List Char × List Char)
  | [] => if listStartsWith [] pat then some ([], []) else none
  | c :: rest =>
      if listStartsWith (c :: rest) pat then some ([], (c :: rest).drop pat.length)
      else
        match splitFirst pat rest with
        | none => none
        | some (pre, post) => some (c :: pre, post)

/-- `strings.SplitN s sep 2` for a non-empty separator: the part before the
first separator and the rest, or the whole string when the separator does
not occur. -/
def goSplitN2 (s sep : String) : List String :=
  match splitFirst sep.data s.data with
  | none => [s]
  | some (pre, post) => [⟨pre⟩, ⟨post⟩]

/-! ## Proxy (`internal/proxy/proxy.go`) -/

/-- `providerTargets` (proxy.go:45-49). -/
def providerTargets : List (String × String) :=
  [("openai", "https://api.openai.com"),
   ("anthropic", "https://api.anthropic.com"),
   ("openrouter", "https://openrouter.ai")]

/-! ### Streaming interception

`newStreamInterceptor` is called at proxy.go:222 but its definition (and the
provider parser packages) are not among the repository sources available
here; the streaming behaviour is therefore modelled from the spec. -/

/-- Modelled from the spec: the JSON-decoded content of one SSE event`s
"data:" payload, as seen by the stream interceptor`s per-chunk usage
recognition (spec §4.3 steps 2-3) — an optional usage object
(input/output token counts) and an optional model name.  The missing code is
`newStreamInterceptor` and the provider chunk parsers. -/
structure Chunk where
  usage : Option (ℤ × ℤ)
  model : Option String
  deriving DecidableEq, Repr

/-- Modelled from the spec: the accumulated state of the stream interceptor —
the first usage object seen and the first model name seen (spec §4.3
step 3). -/
structure StreamState where
  usage : Option (ℤ × ℤ)
  model : Option String
  deriving DecidableEq, Repr

/-- Modelled from the spec: per-chunk scan, capturing the first usage object
and the first model name across chunks (spec §4.3 step 3). -/
def scanChunk (st : StreamState) (c : Chunk) : StreamState :=
  { usage := st.usage <|> c.usage
    model := st.model <|> c.model }

/-- Modelled from the spec: the single Record emitted when a stream
finalizes (spec §4.3 steps 4-6; `newStreamInterceptor` is absent from the
sources).  Cost-known true if a usage object was captured, else cost-known
false with reason "streaming usage not available". -/
def streamFinalEntry (provider endpoint : String) (chunks : List Chunk) : Entry :=
  let st := chunks.foldl scanChunk { usage := none, model := none }
  match st.usage with
  | some (i, o) =>
      { Entry.zero with
        provider := provider, endpoint := endpoint, streaming := true
        model := st.model.getD "", inputTokens := i, outputTokens := o
        costKnown := true }
  | none =>
      { Entry.zero with
        provider := provider, endpoint := endpoint, streaming := true
        model := st.model.getD ""
        costKnown := false, unknownReason := "streaming usage not available" }

/-- Modelled from the spec: the three provider usage extractors
(`openai.ParseResponse` etc., spec §4.4), each mutating a prepared `Entry`
from a full JSON response body.  Their packages are absent from the sources,
so they are abstract parameters of the response handler. -/
structure Extractors where
  openai : String → Entry → Entry
  anthropic : String → Entry → Entry
  openrouter : String → Entry → Entry

/-- `Server.parseUsage` (proxy.go:257-277). -/
def parseUsage (ex : Extractors) (provider endpoint : String) (body : String) : Entry :=
  let entry := { Entry.zero with provider := provider, endpoint := endpoint, streaming := false }
  if provider = "openai" then ex.openai body entry
  else if provider = "anthropic" then ex.anthropic body entry
  else if provider = "openrouter" then ex.openrouter body entry
  else { entry with costKnown := false, unknownReason := "unsupported provider" }

/-- An upstream HTTP response as the interceptor sees it: status code,
content type, and the body as the sequence of byte chunks arriving from
upstream (a buffered read concatenates them). -/
structure HttpResponse where
  statusCode : ℤ
  contentType : String
  chunks : List String
  deriving Repr

/-- The visible outcome of `Server.handleResponse`: the entries passed to
the `OnEntry` callback, in order, and the body forwarded to the client. -/
structure InterceptResult where
  emitted : List Entry
  bodyOut : List String
  deriving Repr

/-- `Server.handleResponse` (proxy.go:209-254).  `onEntrySet` models
`s.config.OnEntry != nil`; `streamChunks` is the decoded per-chunk view of
the same SSE byte chunks, consumed by the spec-modelled interceptor.  The
streaming branch relays the bytes unchanged and emits the interceptor`s one
finalization entry; the buffered JSON branch re-reads the body, forwards the
same bytes, and emits the parsed entry. -/
def handleResponse (onEntrySet : Bool) (ex : Extractors) (provider endpoint : String)
    (resp : HttpResponse) (streamChunks : List Chunk) : InterceptResult :=
  if resp.statusCode < 200 ∨ 300 ≤ resp.statusCode then
    { emitted := [], bodyOut := resp.chunks }
  else if goContains resp.contentType "text/event-stream" then
    { emitted := if onEntrySet then [streamFinalEntry provider endpoint streamChunks] else []
      bodyOut := resp.chunks }
  else if goContains resp.contentType "application/json" then
    let body := String.join resp.chunks
    { emitted := if onEntrySet then [parseUsage ex provider endpoint body] else []
      bodyOut := [body] }
  else
    { emitted := [], bodyOut := resp.chunks }

/-! ### Request routing (`Server.ServeHTTP`, proxy.go:112-165) -/

/-- The visible outcome of `Server.ServeHTTP` routing: an immediate client
error, or a request forwarded upstream for the resolved provider and target
path. -/
inductive ServeOutcome where
  | clientError (status : ℤ) (msg : String)
  | forwarded (provider targetPath : String)
  deriving DecidableEq, Repr

/-- The routing logic of `Server.ServeHTTP` (proxy.go:112-131): split off the
first path segment, resolve it against `providerTargets`, reject unknown
providers with HTTP 400. -/
def routeRequest (path : String) : ServeOutcome :=
  let pathParts := goSplitN2 (goTrimPrefix path "/") "/"
  if pathParts.length < 1 then
    .clientError 400 "invalid path"
  else
    let provider := pathParts.headD ""
    match providerTargets.lookup provider with
    | none => .clientError 400 ("unknown provider: " ++ provider)
    | some _ =>
        let targetPath :=
          if pathParts.length > 1 then "/" ++ pathParts.getD 1 "" else "/"
        .forwarded provider targetPath

/-- One whole proxied exchange as `ServeHTTP` performs it: routing, then —
only on the forwarded branch — response interception via `ModifyResponse`
(proxy.go:156-158).  Returns the entries passed to `OnEntry` and the routing
outcome.  On a client error no upstream call is made and no entry is
produced. -/
def serveRequest (onEntrySet : Bool) (ex : Extractors) (path : String)
    (resp : HttpResponse) (streamChunks : List Chunk) :
    List Entry × ServeOutcome :=
  match routeRequest path with
  | .clientError st msg => ([], .clientError st msg)
  | .forwarded provider targetPath =>
      ((handleResponse onEntrySet ex provider targetPath resp streamChunks).emitted,
       .forwarded provider targetPath)

/-! ### Request mutation (`Server.injectStreamOptions`, proxy.go:169-206)

The body is inspected with `encoding/json` (`Unmarshal` into
`map[string]interface{}`, then `Marshal`).  The standard-library codec is not
repository code; it is modelled as an abstract pair of functions over a
shallow JSON value type, and the repository`s branching logic is embedded
exactly. -/

/-- A shallow JSON value (the image of Go`s `interface{}` decoding). -/
inductive JVal where
  | null : JVal
  | bool (b : Bool) : JVal
  | num (q : ℚ) : JVal
  | str (s : String) : JVal
  | arr (elems : List JVal) : JVal
  | obj (fields : List (String × JVal)) : JVal

/-- A JSON object as decoded into `map[string]interface{}`. -/
abbrev JObj := List (String × JVal)

/-- The `encoding/json` standard-library codec, abstract: `unmarshal` fails
(`none`) on bodies that are not JSON objects, `marshal` may fail as Go`s
`json.Marshal` may. -/
structure JsonCodec where
  unmarshal : String → Option JObj
  marshal : JObj → Option String

/-- The payload mutation inside `injectStreamOptions` (proxy.go:189-195):
inject `stream_options` requesting usage only when `"stream"` is the JSON
boolean `true` (the `payload["stream"].(bool)` type assertion) and no
`"stream_options"` field exists. -/
def mutatePayload (payload : JObj) : JObj :=
  match payload.lookup "stream" with
  | some (.bool true) =>
      if (payload.lookup "stream_options").isSome then payload
      else payload ++ [("stream_options", .obj [("include_usage", .bool true)])]
  | _ => payload

/-- An outbound request body as `injectStreamOptions` sees it: the buffered
body bytes (`none` for `r.Body == nil`) and the declared
`ContentLength`. -/
structure Request where
  body : Option String
  contentLength : ℤ
  deriving Repr

/-- `Server.injectStreamOptions` (proxy.go:169-206): no-op without a body or
with declared length 0; on unmarshal failure the original bytes are restored
with the declared length recomputed from them; otherwise the (possibly
mutated) payload is re-marshalled, falling back to the original bytes when
marshalling fails, and the declared length is recomputed from the bytes
actually installed. -/
def injectStreamOptions (codec : JsonCodec) (r : Request) : Request :=
  match r.body with
  | none => r
  | some body =>
      if r.contentLength = 0 then r
      else
        match codec.unmarshal body with
        | none => { body := some body, contentLength := (body.length : ℤ) }
        | some payload =>
            match codec.marshal (mutatePayload payload) with
            | none => { body := some body, contentLength := (body.length : ℤ) }
            | some modified => { body := some modified, contentLength := (modified.length : ℤ) }

/-! ## The `OnEntry` pricing stage (`cmd/plarix-scan/main.go:105-122`) -/

/-- The cost-computation stage of the `OnEntry` callback
(main.go:107-115): records arriving with cost-known true and a model name
get their cost filled in from the pricing table, or are downgraded to
cost-known false with the table`s reason. -/
def onEntryPrice (prices : Prices) (e : Entry) : Entry :=
  if e.costKnown ∧ e.model ≠ "" then
    let result := prices.ComputeCost e.model e.inputTokens e.outputTokens
    if result.known then
      { e with costUSD := result.costUSD }
    else
      { e with costKnown := false, unknownReason := result.unknownReason }
  else
    e

/-- The finalized-Record invariant claimed by the spec (§3): cost-known
implies an empty unknown-reason and a non-negative cost; cost-known false
implies a non-empty unknown-reason. -/
def finalizedInv (e : Entry) : Prop :=
  (e.costKnown = true → e.unknownReason = "" ∧ 0 ≤ e.costUSD) ∧
  (e.costKnown = false → e.unknownReason ≠ "")

/-- The state of a Record as constructed by the interceptor/extractors
before the pricing stage (spec §4.3-4.4: extractors set cost-known and a
reason, never a cost — "cost is computed externally", ledger.go:16). -/
def preInv (e : Entry) : Prop :=
  (e.costKnown = true → e.unknownReason = "" ∧ 0 ≤ e.costUSD) ∧
  (e.costKnown = false → e.unknownReason ≠ "")

instance (e : Entry) : Decidable (finalizedInv e) := by
  unfold finalizedInv; infer_instance

instance (e : Entry) : Decidable (preInv e) := by
  unfold preInv; infer_instance

/-! ## Theorems -/

/-- A pricing fixture: input rate 0.0025 and output rate 0.01 per 1000
tokens (spec §8). -/
def priceFixture : Prices :=
  { asOf := "2026-01-01"
    models := [("test-model", { inputPer1K := 0.0025, outputPer1K := 0.01 })] }

/-- C4: for every model present in the pricing table with rates r_in and
r_out per 1000 tokens and any token counts i and o, `ComputeCost` returns
known = true, cost = (i·r_in + o·r_out)/1000, and an empty unknown
reason. -/
theorem computeCost_known (p : Prices) (model : String) (mp : ModelPrice)
    (i o : ℤ) (h : p.models.lookup model = some mp) :
    p.ComputeCost model i o =
      { costUSD := ((i : ℚ) * mp.inputPer1K + (o : ℚ) * mp.outputPer1K) / 1000
        known := true
        unknownReason := "" } := by
  unfold Prices.ComputeCost
  rw [h]

/-- C4 witness: rates 0.0025 / 0.01 with 1000 input and 500 output tokens
yield cost 0.0075 with cost-known true. -/
theorem computeCost_known_witness :
    priceFixture.models.lookup "test-model" =
      some { inputPer1K := 0.0025, outputPer1K := 0.01 } ∧
    priceFixture.ComputeCost "test-model" 1000 500 =
      { costUSD := 0.0075, known := true, unknownReason := "" } := by
  refine ⟨by simp [priceFixture], ?_⟩
  rw [computeCost_known priceFixture "test-model"
    { inputPer1K := 0.0025, outputPer1K := 0.01 } 1000 500 (by simp [priceFixture])]
  simp only [CostResult.mk.injEq]
  norm_num

/-- C5: for every model name absent from the pricing table and any token
counts, `ComputeCost` returns known = false, a zero (never fabricated) cost,
and an unknown reason containing the model name. -/
theorem computeCost_unknown (p : Prices) (model : String) (i o : ℤ)
    (h : p.models.lookup model = none) :
    (p.ComputeCost model i o).known = false ∧
    (p.ComputeCost model i o).costUSD = 0 ∧
    ∃ pre post, (p.ComputeCost model i o).unknownReason = pre ++ (model ++ post) := by
  unfold Prices.ComputeCost
  rw [h]
  exact ⟨rfl, rfl, "model \"", "\" not in pricing table", rfl⟩

/-- C5 witness: `ComputeCost` at a model absent from the fixture table. -/
theorem computeCost_unknown_witness :
    priceFixture.models.lookup "mystery-model" = none ∧
    (priceFixture.ComputeCost "mystery-model" 3 7).known = false ∧
    (priceFixture.ComputeCost "mystery-model" 3 7).costUSD = 0 ∧
    ∃ pre post,
      (priceFixture.ComputeCost "mystery-model" 3 7).unknownReason =
        pre ++ ("mystery-model" ++ post) :=
  ⟨by decide, computeCost_unknown priceFixture "mystery-model" 3 7 (by decide)⟩

/-- C10: a pricing document that parses as JSON but lacks a `models` mapping
loads to a `Prices` whose model table is (non-nil and) empty, and every
subsequent `ComputeCost` call returns known = false. -/
theorem load_missing_models (r : RawPrices) (h : r.models = none) :
    (loadFromParsed r).models = [] ∧
    ∀ model i o, ((loadFromParsed r).ComputeCost model i o).known = false := by
  have hm : (loadFromParsed r).models = [] := by
    unfold loadFromParsed
    rw [h]
    rfl
  refine ⟨hm, fun model i o => ?_⟩
  unfold Prices.ComputeCost
  rw [hm]
  rfl

/-- C10 witness: a concrete modelless document. -/
theorem load_missing_models_witness :
    (loadFromParsed { asOf := "2026-01-07", models := none }).models = [] ∧
    ((loadFromParsed { asOf := "2026-01-07", models := none }).ComputeCost
      "gpt-4o" 10 20).known = false :=
  ⟨(load_missing_models { asOf := "2026-01-07", models := none } rfl).1,
   (load_missing_models { asOf := "2026-01-07", models := none } rfl).2 "gpt-4o" 10 20⟩

/-- C6: `IsStale` returns true whenever `as_of` does not parse as a
YYYY-MM-DD date, and — when it does parse — returns true exactly when the
parsed date is older than the max age relative to the current time. -/
theorem isStale_spec (p : Prices) (now maxAge : ℤ) :
    (parseDate p.asOf = none → p.IsStale now maxAge = true) ∧
    (∀ ymd, parseDate p.asOf = some ymd →
      (p.IsStale now maxAge = true ↔ now - dateToUnix ymd > maxAge)) := by
  unfold Prices.IsStale
  constructor
  · intro h
    rw [h]
  · intro ymd h
    rw [h]
    simp

/-- C6 witness: an unparseable as-of string is stale; a parseable one is
stale exactly when older than the max age. -/
theorem isStale_spec_witness :
    parseDate "not-a-date" = none ∧
    Prices.IsStale { asOf := "not-a-date", models := [] } 0 100 = true ∧
    parseDate "2026-01-05" = some (2026, 1, 5) ∧
    (Prices.IsStale { asOf := "2026-01-05", models := [] } 1767657600 86400 = true ↔
      (1767657600 : ℤ) - dateToUnix (2026, 1, 5) > 86400) :=
  ⟨by decide,
   (isStale_spec { asOf := "not-a-date", models := [] } 0 100).1 (by decide),
   by decide,
   (isStale_spec { asOf := "2026-01-05", models := [] } 1767657600 86400).2
     (2026, 1, 5) (by decide)⟩

/-! ### Aggregation: projections of one fold step, then of the whole fold -/

theorem summaryStep_totalCalls (s : Summary) (e : Entry) :
    (summaryStep s e).totalCalls = s.totalCalls + 1 := by
  cases hc : e.costKnown <;> simp [summaryStep, hc]

theorem summaryStep_totalInputTokens (s : Summary) (e : Entry) :
    (summaryStep s e).totalInputTokens = s.totalInputTokens + e.inputTokens := by
  cases hc : e.costKnown <;> simp [summaryStep, hc]

theorem summaryStep_totalOutputTokens (s : Summary) (e : Entry) :
    (summaryStep s e).totalOutputTokens = s.totalOutputTokens + e.outputTokens := by
  cases hc : e.costKnown <;> simp [summaryStep, hc]

theorem summaryStep_knownCostCalls (s : Summary) (e : Entry) :
    (summaryStep s e).knownCostCalls =
      s.knownCostCalls + (if e.costKnown then 1 else 0) := by
  cases hc : e.costKnown <;> simp [summaryStep, hc]

theorem summaryStep_unknownCostCalls (s : Summary) (e : Entry) :
    (summaryStep s e).unknownCostCalls =
      s.unknownCostCalls + (if e.costKnown then 0 else 1) := by
  cases hc : e.costKnown <;> simp [summaryStep, hc]

theorem summaryStep_totalKnownCostUSD (s : Summary) (e : Entry) :
    (summaryStep s e).totalKnownCostUSD =
      s.totalKnownCostUSD + (if e.costKnown then e.costUSD else 0) := by
  cases hc : e.costKnown <;> simp [summaryStep, hc]

theorem foldl_summaryStep_totalCalls (l : List Entry) (s : Summary) :
    (l.foldl summaryStep s).totalCalls = s.totalCalls + l.length := by
  induction l generalizing s with
  | nil => simp
  | cons e t ih =>
      rw [List.foldl_cons, ih, summaryStep_totalCalls, List.length_cons]
      push_cast
      ring

theorem foldl_summaryStep_totalInputTokens (l : List Entry) (s : Summary) :
    (l.foldl summaryStep s).totalInputTokens =
      s.totalInputTokens + (l.map (·.inputTokens)).sum := by
  induction l generalizing s with
  | nil => simp
  | cons e t ih =>
      rw [List.foldl_cons, ih, summaryStep_totalInputTokens]
      simp [add_assoc]

theorem foldl_summaryStep_totalOutputTokens (l : List Entry) (s : Summary) :
    (l.foldl summaryStep s).totalOutputTokens =
      s.totalOutputTokens + (l.map (·.outputTokens)).sum := by
  induction l generalizing s with
  | nil => simp
  | cons e t ih =>
      rw [List.foldl_cons, ih, summaryStep_totalOutputTokens]
      simp [add_assoc]

theorem foldl_summaryStep_knownCostCalls (l : List Entry) (s : Summary) :
    (l.foldl summaryStep s).knownCostCalls =
      s.knownCostCalls + (l.countP (·.costKnown) : ℤ) := by
  induction l generalizing s with
  | nil => simp
  | cons e t ih =>
      rw [List.foldl_cons, ih, summaryStep_knownCostCalls, List.countP_cons]
      cases hc : e.costKnown
      · simp [hc]
      · simp [hc]
        ring

theorem foldl_summaryStep_unknownCostCalls (l : List Entry) (s : Summary) :
    (l.foldl summaryStep s).unknownCostCalls =
      s.unknownCostCalls + (l.countP (fun e => !e.costKnown) : ℤ) := by
  induction l generalizing s with
  | nil => simp
  | cons e t ih =>
      rw [List.foldl_cons, ih, summaryStep_unknownCostCalls, List.countP_cons]
      cases hc : e.costKnown
      · simp [hc]
        ring
      · simp [hc]

theorem foldl_summaryStep_totalKnownCostUSD (l : List Entry) (s : Summary) :
    (l.foldl summaryStep s).totalKnownCostUSD =
      s.totalKnownCostUSD +
        (l.map (fun e => if e.costKnown then e.costUSD else 0)).sum := by
  induction l generalizing s with
  | nil => simp
  | cons e t ih =>
      rw [List.foldl_cons, ih, summaryStep_totalKnownCostUSD]
      simp [add_assoc]

/-- C2: every aggregate total of `Aggregator.Summary` — total calls,
known/unknown cost calls, total input/output tokens, total known cost — is
invariant under any permutation of the order in which the entries were
added. -/
theorem summary_perm_invariant (l l' : List Entry) (h : l.Perm l') :
    (aggregatorSummary l).totalCalls = (aggregatorSummary l').totalCalls ∧
    (aggregatorSummary l).knownCostCalls = (aggregatorSummary l').knownCostCalls ∧
    (aggregatorSummary l).unknownCostCalls = (aggregatorSummary l').unknownCostCalls ∧
    (aggregatorSummary l).totalInputTokens = (aggregatorSummary l').totalInputTokens ∧
    (aggregatorSummary l).totalOutputTokens = (aggregatorSummary l').totalOutputTokens ∧
    (aggregatorSummary l).totalKnownCostUSD = (aggregatorSummary l').totalKnownCostUSD := by
  unfold aggregatorSummary
  refine ⟨?_, ?_, ?_, ?_, ?_, ?_⟩
  · rw [foldl_summaryStep_totalCalls, foldl_summaryStep_totalCalls, h.length_eq]
  · rw [foldl_summaryStep_knownCostCalls, foldl_summaryStep_knownCostCalls,
      h.countP_eq]
  · rw [foldl_summaryStep_unknownCostCalls, foldl_summaryStep_unknownCostCalls,
      h.countP_eq]
  · rw [foldl_summaryStep_totalInputTokens, foldl_summaryStep_totalInputTokens,
      (h.map (·.inputTokens)).sum_eq]
  · rw [foldl_summaryStep_totalOutputTokens, foldl_summaryStep_totalOutputTokens,
      (h.map (·.outputTokens)).sum_eq]
  · rw [foldl_summaryStep_totalKnownCostUSD, foldl_summaryStep_totalKnownCostUSD,
      (h.map (fun e => if e.costKnown then e.costUSD else 0)).sum_eq]

/-- A known-cost sample entry. -/
def entryA : Entry :=
  { Entry.zero with
    provider := "openai", model := "gpt-4o"
    inputTokens := 100, outputTokens := 20
    costUSD := 1/2, costKnown := true }

/-- An unknown-cost sample entry. -/
def entryB : Entry :=
  { Entry.zero with
    provider := "anthropic", model := "claude-x"
    inputTokens := 7, outputTokens := 3
    costKnown := false, unknownReason := "usage missing" }

/-- C2 witness: the aggregate totals agree on a concrete two-entry sequence
and its transposition. -/
theorem summary_perm_invariant_witness :
    ([entryA, entryB].Perm [entryB, entryA]) ∧
    (aggregatorSummary [entryA, entryB]).totalCalls =
      (aggregatorSummary [entryB, entryA]).totalCalls ∧
    (aggregatorSummary [entryA, entryB]).knownCostCalls =
      (aggregatorSummary [entryB, entryA]).knownCostCalls ∧
    (aggregatorSummary [entryA, entryB]).unknownCostCalls =
      (aggregatorSummary [entryB, entryA]).unknownCostCalls ∧
    (aggregatorSummary [entryA, entryB]).totalInputTokens =
      (aggregatorSummary [entryB, entryA]).totalInputTokens ∧
    (aggregatorSummary [entryA, entryB]).totalOutputTokens =
      (aggregatorSummary [entryB, entryA]).totalOutputTokens ∧
    (aggregatorSummary [entryA, entryB]).totalKnownCostUSD =
      (aggregatorSummary [entryB, entryA]).totalKnownCostUSD :=
  ⟨List.Perm.swap entryB entryA [],
   summary_perm_invariant [entryA, entryB] [entryB, entryA]
     (List.Perm.swap entryB entryA [])⟩

/-! ### Interception: one record per call, 2xx gating, provider routing -/

/-- C1: with the `OnEntry` callback installed, every intercepted logical
call passes exactly one Entry to the callback: a 2xx streaming
(text/event-stream) response produces exactly one Entry regardless of the
chunk count (including zero usage-bearing chunks), and a 2xx buffered JSON
response produces exactly one Entry. -/
theorem one_entry_per_call (ex : Extractors) (provider endpoint : String)
    (resp : HttpResponse) (streamChunks : List Chunk)
    (hOk : 200 ≤ resp.statusCode ∧ resp.statusCode < 300)
    (hCT : goContains resp.contentType "text/event-stream" = true ∨
      (goContains resp.contentType "text/event-stream" = false ∧
        goContains resp.contentType "application/json" = true)) :
    (handleResponse true ex provider endpoint resp streamChunks).emitted.length = 1 := by
  have hs : ¬(resp.statusCode < 200 ∨ 300 ≤ resp.statusCode) := by omega
  rcases hCT with h | ⟨h, h'⟩
  · simp [handleResponse, hs, h]
  · simp [handleResponse, hs, h, h']

/-- Extractors that leave the prepared entry untouched (a concrete stand-in
for the absent provider parser packages). -/
def trivExtractors : Extractors :=
  { openai := fun _ e => e
    anthropic := fun _ e => e
    openrouter := fun _ e => e }

/-- A 2xx SSE response. -/
def streamResp : HttpResponse :=
  { statusCode := 200
    contentType := "text/event-stream"
    chunks := ["data: \x7b\x7d\n\n", "data: [DONE]\n\n"] }

/-- A 2xx buffered JSON response. -/
def jsonResp : HttpResponse :=
  { statusCode := 200
    contentType := "application/json; charset=utf-8"
    chunks := ["\x7b\"usage\":\x7b\"prompt_tokens\":3\x7d\x7d"] }

/-- C1 witness: one entry for a concrete stream with zero usage-bearing
chunks, and one entry for a concrete buffered JSON response. -/
theorem one_entry_per_call_witness :
    (handleResponse true trivExtractors "openai" "/v1/chat/completions"
      streamResp []).emitted.length = 1 ∧
    (handleResponse true trivExtractors "openai" "/v1/chat/completions"
      jsonResp []).emitted.length = 1 :=
  ⟨one_entry_per_call trivExtractors "openai" "/v1/chat/completions" streamResp []
      (by decide) (Or.inl (by decide)),
    one_entry_per_call trivExtractors "openai" "/v1/chat/completions" jsonResp []
      (by decide) (Or.inr ⟨by decide, by decide⟩)⟩

/-- C9: for a response whose status is below 200 or at least 300,
`handleResponse` emits no entry (no interceptor, `OnEntry` never invoked)
and forwards the body unchanged. -/
theorem non2xx_no_entry (onEntrySet : Bool) (ex : Extractors)
    (provider endpoint : String) (resp : HttpResponse) (streamChunks : List Chunk)
    (h : resp.statusCode < 200 ∨ 300 ≤ resp.statusCode) :
    handleResponse onEntrySet ex provider endpoint resp streamChunks =
      { emitted := [], bodyOut := resp.chunks } := by
  unfold handleResponse
  rw [if_pos h]

/-- A rate-limited upstream response. -/
def errorResp : HttpResponse :=
  { statusCode := 429
    contentType := "application/json"
    chunks := ["\x7b\"error\":\x7b\"type\":\"rate_limit\"\x7d\x7d"] }

/-- C9 witness: a concrete 429 JSON response yields no entry and passes its
body through unchanged. -/
theorem non2xx_no_entry_witness :
    handleResponse true trivExtractors "openai" "/v1/chat/completions" errorResp [] =
      { emitted := [], bodyOut := errorResp.chunks } :=
  non2xx_no_entry true trivExtractors "openai" "/v1/chat/completions" errorResp []
    (Or.inr (by decide))

/-- `goSplitN2` never returns the empty list, like `strings.SplitN`. -/
theorem goSplitN2_ne_nil (s sep : String) : goSplitN2 s sep ≠ [] := by
  unfold goSplitN2
  cases h : splitFirst sep.data s.data with
  | none => simp
  | some pr => cases pr with | mk pre post => simp

/-- A provider name different from the three supported ones has no entry in
`providerTargets`. -/
theorem providerTargets_lookup_none (prov : String)
    (h : prov ∉ ["openai", "anthropic", "openrouter"]) :
    providerTargets.lookup prov = none := by
  simp only [List.mem_cons, List.not_mem_nil, or_false, not_or] at h
  obtain ⟨h1, h2, h3⟩ := h
  have b1 : (prov == "openai") = false := beq_eq_false_iff_ne.mpr h1
  have b2 : (prov == "anthropic") = false := beq_eq_false_iff_ne.mpr h2
  have b3 : (prov == "openrouter") = false := beq_eq_false_iff_ne.mpr h3
  simp [providerTargets, List.lookup, b1, b2, b3]

/-- C7: a request whose first path segment is not a supported provider is
answered with HTTP 400 and produces no Entry: `OnEntry` is never invoked. -/
theorem unknown_provider_rejected (onEntrySet : Bool) (ex : Extractors)
    (path : String) (resp : HttpResponse) (streamChunks : List Chunk)
    (h : (goSplitN2 (goTrimPrefix path "/") "/").headD "" ∉
      ["openai", "anthropic", "openrouter"]) :
    serveRequest onEntrySet ex path resp streamChunks =
      ([], .clientError 400
        ("unknown provider: " ++ (goSplitN2 (goTrimPrefix path "/") "/").headD "")) := by
  unfold serveRequest routeRequest
  have hne := goSplitN2_ne_nil (goTrimPrefix path "/") "/"
  have hlen : ¬((goSplitN2 (goTrimPrefix path "/") "/").length < 1) := by
    cases hx : goSplitN2 (goTrimPrefix path "/") "/" with
    | nil => exact absurd hx hne
    | cons a t => simp
  rw [if_neg hlen]
  simp only [providerTargets_lookup_none _ h]

/-- C7 witness: a request for an unsupported provider prefix. -/
theorem unknown_provider_rejected_witness :
    serveRequest true trivExtractors "/mistral/v1/chat" jsonResp [] =
      ([], .clientError 400 "unknown provider: mistral") := by
  have h := unknown_provider_rejected true trivExtractors "/mistral/v1/chat"
    jsonResp [] (by decide)
  exact h

/-! ### The finalized-Record invariant (C3) -/

/-- A successful association-list lookup finds a binding of the list. -/
theorem lookup_mem {V : Type} {l : List (String × V)} {k : String} {v : V}
    (h : l.lookup k = some v) : (k, v) ∈ l := by
  induction l with
  | nil => simp at h
  | cons p t ih =>
      cases p with
      | mk k2 v2 =>
          rw [List.lookup_cons] at h
          cases hk : k == k2
          · simp only [hk] at h
            exact List.mem_cons_of_mem _ (ih h)
          · simp only [hk] at h
            obtain rfl := Option.some.inj h
            have hkk : k = k2 := by simpa using hk
            subst hkk
            exact List.mem_cons_self _ _

/-- The reason formatted for a model missing from the pricing table is never
the empty string. -/
theorem missing_model_reason_ne_empty (model : String) :
    ("model \"" ++ (model ++ "\" not in pricing table") : String) ≠ "" := by
  intro h
  have hd := congrArg String.data h
  simp at hd

/-- C3 counterexample: the claimed invariant fails as stated.  With a
(user-supplied, unvalidated) pricing table carrying a negative per-1K rate,
a record that reaches the pricing stage in a legitimate pre-state is
finalized with cost-known true and a negative cost. -/
def negPrices : Prices :=
  { asOf := "2026-01-01"
    models := [("neg-model", { inputPer1K := -1, outputPer1K := 0 })] }

/-- The record entering the pricing stage in the counterexample: cost-known
true, model set, zero cost, empty reason — a legitimate extractor output. -/
def negEntry : Entry :=
  { Entry.zero with model := "neg-model", inputTokens := 1000, costKnown := true }

/-- C3 counterexample theorem: at `negPrices`/`negEntry` the finalized
record has cost-known true yet a strictly negative cost, refuting
"CostKnown ⇒ CostUSD ≥ 0" as universally stated. -/
theorem onEntry_invariant_counterexample :
    preInv negEntry ∧
    (onEntryPrice negPrices negEntry).costKnown = true ∧
    (onEntryPrice negPrices negEntry).costUSD < 0 := by
  refine ⟨by decide, by decide, ?_⟩
  norm_num [onEntryPrice, negPrices, negEntry, Entry.zero, Prices.ComputeCost]
  rw [if_neg (by decide : ¬("neg-model" : String) = "")]
  norm_num

/-- C3 (amended): for a record that enters the pricing stage satisfying the
extractor post-state (cost-known ⇒ empty reason and non-negative cost;
cost-known false ⇒ non-empty reason), and provided every rate of the pricing
table and the record`s token counts are non-negative, the record finalized
by the `OnEntry` pricing stage satisfies the invariant: cost-known ⇒ empty
unknown-reason and cost ≥ 0; cost-known false ⇒ non-empty unknown-reason. -/
theorem onEntry_invariant_amended (prices : Prices) (e : Entry)
    (hPre : preInv e)
    (hRates : ∀ x ∈ prices.models, 0 ≤ x.2.inputPer1K ∧ 0 ≤ x.2.outputPer1K)
    (hTok : 0 ≤ e.inputTokens ∧ 0 ≤ e.outputTokens) :
    finalizedInv (onEntryPrice prices e) := by
  unfold onEntryPrice
  by_cases hc : e.costKnown ∧ e.model ≠ ""
  · rw [if_pos hc]
    unfold Prices.ComputeCost
    cases hl : prices.models.lookup e.model with
    | none =>
        simp only
        constructor
        · intro hk
          simp at hk
        · intro _
          exact missing_model_reason_ne_empty e.model
    | some mp =>
        simp only
        have hmp := hRates _ (lookup_mem hl)
        constructor
        · intro _
          refine ⟨(hPre.1 hc.1).1, ?_⟩
          have h1 : (0 : ℚ) ≤ (e.inputTokens : ℚ) * mp.inputPer1K :=
            mul_nonneg (by exact_mod_cast hTok.1) hmp.1
          have h2 : (0 : ℚ) ≤ (e.outputTokens : ℚ) * mp.outputPer1K :=
            mul_nonneg (by exact_mod_cast hTok.2) hmp.2
          have : (0 : ℚ) ≤ (e.inputTokens : ℚ) * mp.inputPer1K +
              (e.outputTokens : ℚ) * mp.outputPer1K := add_nonneg h1 h2
          exact div_nonneg this (by norm_num)
        · intro hk
          rw [hc.1] at hk
          simp at hk
  · rw [if_neg hc]
    exact hPre

/-- C3 witness for the amended theorem: a concrete record priced against the
fixture table satisfies the finalized invariant. -/
def wellEntry : Entry :=
  { Entry.zero with
    provider := "openai", model := "test-model"
    inputTokens := 1000, outputTokens := 500, costKnown := true }

theorem onEntry_invariant_amended_witness :
    preInv wellEntry ∧
    (∀ x ∈ priceFixture.models, 0 ≤ x.2.inputPer1K ∧ 0 ≤ x.2.outputPer1K) ∧
    (0 ≤ wellEntry.inputTokens ∧ 0 ≤ wellEntry.outputTokens) ∧
    finalizedInv (onEntryPrice priceFixture wellEntry) :=
  have hRates : ∀ x ∈ priceFixture.models, 0 ≤ x.2.inputPer1K ∧ 0 ≤ x.2.outputPer1K := by
    intro x hx
    simp only [priceFixture, List.mem_cons, List.not_mem_nil, or_false] at hx
    subst hx
    norm_num
  ⟨by decide, hRates, by decide,
    onEntry_invariant_amended priceFixture wellEntry (by decide) hRates (by decide)⟩

/-! ### Request mutation fails open (C8) -/

/-- C8: for a request carrying a body, (i) when the body does not unmarshal
as JSON the forwarded bytes are the original ones and the declared length is
the original body`s length; (ii) when the mutated payload fails to
re-marshal the original bytes and their length are likewise restored;
(iii) after a successful mutation the declared length is the length of the
mutated body actually installed; and (iv,v) the usage-options field is
injected exactly when the JSON body has "stream" set to the boolean true
and no existing "stream_options" field. -/
theorem injectStreamOptions_spec (codec : JsonCodec) (r : Request) :
    (∀ body, r.body = some body → r.contentLength ≠ 0 →
      codec.unmarshal body = none →
      injectStreamOptions codec r =
        { body := some body, contentLength := (body.length : ℤ) }) ∧
    (∀ body payload, r.body = some body → r.contentLength ≠ 0 →
      codec.unmarshal body = some payload →
      codec.marshal (mutatePayload payload) = none →
      injectStreamOptions codec r =
        { body := some body, contentLength := (body.length : ℤ) }) ∧
    (∀ body payload m, r.body = some body → r.contentLength ≠ 0 →
      codec.unmarshal body = some payload →
      codec.marshal (mutatePayload payload) = some m →
      injectStreamOptions codec r =
        { body := some m, contentLength := (m.length : ℤ) }) ∧
    (∀ payload, ¬(payload.lookup "stream" = some (.bool true) ∧
        payload.lookup "stream_options" = none) →
      mutatePayload payload = payload) ∧
    (∀ payload, payload.lookup "stream" = some (.bool true) →
      payload.lookup "stream_options" = none →
      mutatePayload payload =
        payload ++ [("stream_options", .obj [("include_usage", .bool true)])]) := by
  obtain ⟨rb, rc⟩ := r
  refine ⟨?_, ?_, ?_, ?_, ?_⟩
  · intro body hb hc hu
    obtain rfl : rb = some body := hb
    simp only [injectStreamOptions, if_neg hc, hu]
  · intro body payload hb hc hu hm
    obtain rfl : rb = some body := hb
    simp only [injectStreamOptions, if_neg hc, hu, hm]
  · intro body payload m hb hc hu hm
    obtain rfl : rb = some body := hb
    simp only [injectStreamOptions, if_neg hc, hu, hm]
  · intro payload hno
    unfold mutatePayload
    split
    · next hs =>
        rw [if_pos]
        rw [Option.isSome_iff_ne_none]
        intro hopt
        exact hno ⟨hs, hopt⟩
    · rfl
  · intro payload hs hopt
    unfold mutatePayload
    rw [hs]
    rw [if_neg]
    rw [Option.isSome_iff_ne_none]
    simp [hopt]

/-- A concrete stand-in codec for the witness: recognizes exactly one JSON
body, and renders the mutated payload to a fixed byte string. -/
def stubCodec : JsonCodec :=
  { unmarshal := fun body =>
      if body = "\x7b\"stream\":true\x7d" then some [("stream", .bool true)] else none
    marshal := fun payload =>
      if payload.isEmpty then none
      else some "\x7b\"stream\":true,\"stream_options\":\x7b\"include_usage\":true\x7d\x7d" }

/-- C8 witness: a non-JSON body is forwarded unchanged with its length
restored; a streaming JSON body gets the usage-options field injected and
the declared length recomputed from the re-marshalled bytes. -/
theorem injectStreamOptions_spec_witness :
    stubCodec.unmarshal "not json at all" = none ∧
    injectStreamOptions stubCodec { body := some "not json at all", contentLength := 999 } =
      { body := some "not json at all", contentLength := 15 } ∧
    mutatePayload [("stream", JVal.bool true)] =
      [("stream", JVal.bool true),
       ("stream_options", JVal.obj [("include_usage", JVal.bool true)])] ∧
    injectStreamOptions stubCodec
        { body := some "\x7b\"stream\":true\x7d", contentLength := 15 } =
      { body := some "\x7b\"stream\":true,\"stream_options\":\x7b\"include_usage\":true\x7d\x7d"
        contentLength := 55 } := by
  have h1 : stubCodec.unmarshal "not json at all" = none := rfl
  have h2 : stubCodec.unmarshal "\x7b\"stream\":true\x7d" = some [("stream", .bool true)] := rfl
  have h3 := (injectStreamOptions_spec stubCodec
    { body := some "not json at all", contentLength := 999 }).1
    "not json at all" rfl (by decide) h1
  have h4 := (injectStreamOptions_spec stubCodec
    { body := some "\x7b\"stream\":true\x7d", contentLength := 15 }).2.2.2.2
    [("stream", JVal.bool true)] rfl rfl
  have h5 : stubCodec.marshal
      (mutatePayload [("stream", JVal.bool true)]) =
      some "\x7b\"stream\":true,\"stream_options\":\x7b\"include_usage\":true\x7d\x7d" := by
    rw [h4]
    rfl
  have h6 := (injectStreamOptions_spec stubCodec
    { body := some "\x7b\"stream\":true\x7d", contentLength := 15 }).2.2.1
    "\x7b\"stream\":true\x7d" [("stream", JVal.bool true)]
    "\x7b\"stream\":true,\"stream_options\":\x7b\"include_usage\":true\x7d\x7d"
    rfl (by decide) h2 h5
  refine ⟨h1, ?_, h4, ?_⟩
  · rw [h3]
    rfl
  · rw [h6]
    rfl

end PlarixScan
